import Mathlib

/-!
Verification development for the `terraform-provider-githubx` repository
(`internal/provider`).  The Go source is shallowly embedded: remote API calls
become explicit response scripts (functions from call index to response),
Terraform's tri-state attribute values become small inductive types, and each
handler's control flow is translated into a total Lean function.  Theorems at
the end of the file settle the specification claims against these embeddings.
-/

namespace Githubx

/-- A Terraform diagnostic: `isErr = true` for `AddError`, `false` for
`AddWarning`.  Only the summary string is modelled; the detail text carries no
control flow in the source. -/
structure Diag where
  isErr : Bool
  summary : String
  deriving DecidableEq, Repr

/-- Shorthand for a diagnostic produced by `Diagnostics.AddError`. -/
def errDiag (s : String) : Diag := ⟨true, s⟩

/-- Shorthand for a diagnostic produced by `Diagnostics.AddWarning`. -/
def warnDiag (s : String) : Diag := ⟨false, s⟩

/-- A Go error returned by a go-github call.  `status = some s` models the case
where `errors.As(err, &ghErr)` succeeds and `ghErr.Response != nil` with HTTP
status code `s`; `status = none` models every other error (a non-HTTP error or
an `ErrorResponse` with nil `Response`).  `msg` is `err.Error()`. -/
structure CallErr where
  status : Option Nat
  msg : String
  deriving DecidableEq, Repr

/-- Terraform's `types.String`: null, unknown, or a concrete value. -/
inductive TFString
  | null
  | unknown
  | value (s : String)
  deriving DecidableEq, Repr

/-- Go `types.String.ValueString()`: returns the value, or `""` for
null/unknown. -/
def TFString.valueString : TFString → String
  | .value s => s
  | _ => ""

/-- The ubiquitous Go guard `!x.IsNull() && !x.IsUnknown()`. -/
def TFString.known : TFString → Bool
  | .value _ => true
  | _ => false

/-- Terraform's `types.Bool`. -/
inductive TFBool
  | null
  | unknown
  | value (b : Bool)
  deriving DecidableEq, Repr

/-- Go `types.Bool.ValueBool()`: the value, or `false` for null/unknown. -/
def TFBool.valueBool : TFBool → Bool
  | .value b => b
  | _ => false

/-- Terraform's `types.Int64`. -/
inductive TFInt
  | null
  | unknown
  | value (n : Int)
  deriving DecidableEq, Repr

/-! ## Repository file resource (`resource_repository_file.go`) -/

/-- Outcome of parsing `fc.GetURL()` and its query string inside `readFile`
(`url.Parse` / `url.ParseQuery` / the `"ref"` query values).  The URL string is
environment data, so its parse outcome is carried as data. -/
inductive UrlParseResult
  | parseErr
  | queryErr
  | ok (ref : Option String)
  deriving DecidableEq, Repr

/-- The `*github.RepositoryContent` returned by `GetContents`: its blob SHA
(`GetSHA`), the decoded content (`GetContent`, `none` when decoding fails), and
the parse outcome of its URL. -/
structure FileContentData where
  sha : String
  content : Option String
  urlParse : UrlParseResult
  deriving DecidableEq, Repr

/-- Result of one `Repositories.GetContents` call: the file content pointer
(`nil` or not) and the error, modelled independently, exactly as the Go code
inspects them. -/
structure GetContentsResult where
  fc : Option FileContentData
  err : Option CallErr
  deriving DecidableEq, Repr

/-- The `repositoryFileResourceModel` state/plan record. -/
structure FileModel where
  repository : TFString
  file : TFString
  content : TFString
  branch : TFString
  ref : TFString
  commitSHA : TFString
  commitMessage : TFString
  commitAuthor : TFString
  commitEmail : TFString
  sha : TFString
  overwriteOnCreate : TFBool
  autocreateBranch : TFBool
  autocreateBranchSource : TFString
  autocreateBranchSourceSHA : TFString
  id : TFString
  deriving DecidableEq, Repr

/-- A `*github.RepositoryContentFileOptions` request object as built by
`buildFileOptions` and mutated by Create/Update/Delete before the API call. -/
structure FileOptions where
  content : String
  branch : Option String
  message : Option String
  author : Option (String × String)
  committer : Option (String × String)
  sha : Option String
  deriving DecidableEq, Repr

/-- Go `buildFileOptions` (resource_repository_file.go:708-751): builds the
request options from the model; rejects a commit author without an email and
vice versa. -/
def buildFileOptions (m : FileModel) (content : String) : Except Diag FileOptions :=
  let opts0 : FileOptions :=
    { content := content, branch := none, message := none,
      author := none, committer := none, sha := none }
  let opts1 := if m.branch.known then {opts0 with branch := some m.branch.valueString} else opts0
  let opts2 :=
    if m.commitMessage.known then {opts1 with message := some m.commitMessage.valueString}
    else opts1
  let hasCommitAuthor := m.commitAuthor.known
  let hasCommitEmail := m.commitEmail.known
  if hasCommitAuthor && !hasCommitEmail then
    .error (errDiag "Invalid Commit Author Configuration")
  else if hasCommitEmail && !hasCommitAuthor then
    .error (errDiag "Invalid Commit Author Configuration")
  else if hasCommitAuthor && hasCommitEmail then
    .ok {opts2 with
          author := some (m.commitAuthor.valueString, m.commitEmail.valueString),
          committer := some (m.commitAuthor.valueString, m.commitEmail.valueString)}
  else .ok opts2

/-- Update's option preparation (resource_repository_file.go:411-425): build
the options, install the last-known blob SHA from state as the write
precondition, and default the commit message to `Update <file>`.  (The Go code
also mirrors the defaulted message into `plan.CommitMessage`.) -/
def updateBuildOpts (plan state : FileModel) (filePath : String) : Except Diag FileOptions :=
  match buildFileOptions plan plan.content.valueString with
  | .error d => .error d
  | .ok o0 =>
    let o1 := if state.sha.known then {o0 with sha := some state.sha.valueString} else o0
    let o2 :=
      if o1.message = none || o1.message = some "" || o1.message = some ("Add " ++ filePath) then
        {o1 with message := some ("Update " ++ filePath)}
      else o1
    .ok o2

/-- Delete's option preparation (resource_repository_file.go:515-528): build
the options with empty content, default the commit message to
`Delete <file>`, and install the last-known blob SHA from state. -/
def deleteBuildOpts (state : FileModel) (filePath : String) : Except Diag FileOptions :=
  match buildFileOptions state "" with
  | .error d => .error d
  | .ok o0 =>
    let o1 :=
      if o0.message = none || o0.message = some "" || o0.message = some ("Add " ++ filePath) then
        {o0 with message := some ("Delete " ++ filePath)}
      else o0
    let o2 := if state.sha.known then {o1 with sha := some state.sha.valueString} else o1
    .ok o2

/-- The `maxRetries` constant in Create, Update and Delete of the file resource. -/
def maxRetries : Nat := 5

/-- Response script for the `CreateFile` calls issued by the retry loops: the
`i`-th call either succeeds with the commit SHA of the
`RepositoryContentResponse` or fails. -/
abbrev CreateScript := Nat → Except CallErr String

/-- Response script for the `GetContents` calls issued inside the retry
loops. -/
abbrev GetScript := Nat → GetContentsResult

/-- Response script for the `DeleteFile` calls (`none` = success). -/
abbrev DeleteScript := Nat → Option CallErr

/-- Outcome of the Create retry loop together with the diagnostic it leads
to. -/
inductive CreateOutcome
  | success (commitSHA : String)
  | alreadyExistsErr
  | failure (e : CallErr)
  deriving DecidableEq, Repr

/-- Outcome of the Update retry loop. -/
inductive UpdateOutcome
  | success (commitSHA : String)
  | failure (e : CallErr)
  deriving DecidableEq, Repr

/-- Outcome of the Delete retry loop.  `success` covers every return without a
diagnostic: a successful `DeleteFile`, a 404 from `DeleteFile`, and a 404
from the conflict-path `GetContents` (the file is treated as already
deleted). -/
inductive DeleteOutcome
  | success
  | failure (e : CallErr)
  deriving DecidableEq, Repr

/-- The Create retry loop (resource_repository_file.go:226-255).  `fuel` is the
number of loop iterations still allowed (`maxRetries - attempt`), `i` the index
of the next API call, `sha` the current `opts.SHA`.  Returns the list of
`opts.SHA` values sent with each `CreateFile` call, in order, and the outcome.
Only HTTP 409 (`http.StatusConflict`) triggers a retry; the conflict path
re-fetches the remote file and, when the fetch succeeds with a file, either
adopts the fresh SHA (`overwrite_on_create` set) or reports
"File Already Exists"; when the fetch fails the loop retries with its previous
SHA.  The `fuel = 0` equation is never reached from `fileCreateConflictRetry`
because recursion is guarded by `fuel ≠ 0`. -/
def createFileLoop (create : CreateScript) (get : GetScript) (overwrite : Bool) :
    Nat → Nat → Option String → List (Option String) × CreateOutcome
  | 0, _, _ => ([], .failure ⟨none, ""⟩)
  | fuel + 1, i, sha =>
    match create i with
    | .ok c => ([sha], .success c)
    | .error e =>
      if e.status = some 409 then
        let g := get i
        match g.err, g.fc with
        | none, some fcd =>
          if overwrite then
            if fuel = 0 then ([sha], .failure e)
            else
              let r := createFileLoop create get overwrite fuel (i + 1) (some fcd.sha)
              (sha :: r.1, r.2)
          else ([sha], .alreadyExistsErr)
        | _, _ =>
          if fuel = 0 then ([sha], .failure e)
          else
            let r := createFileLoop create get overwrite fuel (i + 1) sha
            (sha :: r.1, r.2)
      else ([sha], .failure e)

/-- The Create retry section entered with `attempt = 0` and the `opts.SHA`
seeded by the `overwrite_on_create` pre-check. -/
def fileCreateConflictRetry (create : CreateScript) (get : GetScript) (overwrite : Bool)
    (sha0 : Option String) : List (Option String) × CreateOutcome :=
  createFileLoop create get overwrite maxRetries 0 sha0

/-- The Update retry loop (resource_repository_file.go:427-447).  Only HTTP 409
triggers a retry, and only when the follow-up `GetContents` succeeds with a
non-nil file content, whose SHA becomes the next precondition; otherwise the
loop breaks and the error is surfaced. -/
def updateFileLoop (create : CreateScript) (get : GetScript) :
    Nat → Nat → Option String → List (Option String) × UpdateOutcome
  | 0, _, _ => ([], .failure ⟨none, ""⟩)
  | fuel + 1, i, sha =>
    match create i with
    | .ok c => ([sha], .success c)
    | .error e =>
      if e.status = some 409 then
        let g := get i
        match g.err, g.fc with
        | none, some fcd =>
          if fuel = 0 then ([sha], .failure e)
          else
            let r := updateFileLoop create get fuel (i + 1) (some fcd.sha)
            (sha :: r.1, r.2)
        | _, _ => ([sha], .failure e)
      else ([sha], .failure e)

/-- The Update retry section entered with `attempt = 0`. -/
def fileUpdateConflictRetry (create : CreateScript) (get : GetScript)
    (sha0 : Option String) : List (Option String) × UpdateOutcome :=
  updateFileLoop create get maxRetries 0 sha0

/-- The check Delete applies to the conflict-path read error
(resource_repository_file.go:546-551): `errors.As` succeeds, the response is
non-nil, and its status is 404. -/
def readErrIsNotFound : Option CallErr → Bool
  | some re => re.status == some 404
  | none => false

/-- The Delete retry loop (resource_repository_file.go:530-559).  A 404 from
`DeleteFile` returns success (already deleted); a 409 re-fetches the file:
a 404 from that read also returns success, a non-nil file content yields a
retry with the fresh SHA, anything else breaks; any other error breaks and is
surfaced. -/
def deleteFileLoop (del : DeleteScript) (get : GetScript) :
    Nat → Nat → Option String → List (Option String) × DeleteOutcome
  | 0, _, _ => ([], .failure ⟨none, ""⟩)
  | fuel + 1, i, sha =>
    match del i with
    | none => ([sha], .success)
    | some e =>
      if e.status = some 404 then ([sha], .success)
      else if e.status = some 409 then
        let g := get i
        if readErrIsNotFound g.err then
          ([sha], .success)
        else
          match g.fc with
          | some fcd =>
            if fuel = 0 then ([sha], .failure e)
            else
              let r := deleteFileLoop del get fuel (i + 1) (some fcd.sha)
              (sha :: r.1, r.2)
          | none => ([sha], .failure e)
      else ([sha], .failure e)

/-- The Delete retry section entered with `attempt = 0`. -/
def fileDeleteConflictRetry (del : DeleteScript) (get : GetScript)
    (sha0 : Option String) : List (Option String) × DeleteOutcome :=
  deleteFileLoop del get maxRetries 0 sha0

/-- The `Commit` payload inside a `*github.RepositoryCommit`
(`commit.Commit`): message and optional committer (name, email). -/
structure CommitDetail where
  message : String
  committer : Option (String × String)
  deriving DecidableEq, Repr

/-- A `*github.RepositoryCommit`: its SHA and the possibly-nil `Commit`
payload. -/
structure CommitData where
  sha : String
  commit : Option CommitDetail
  deriving DecidableEq, Repr

/-- Go `getFileCommit` (resource_repository_file.go:872-897): list the commits
touching the file (`PerPage: 1`), fail when the listing fails or is empty,
then fetch the first commit's details.  `listCommits` is the script for
`Repositories.ListCommits` (`none` = error, otherwise the commit SHAs) and
`getCommit` the script for `Repositories.GetCommit` by SHA (`none` = error).
The function returns `none` on any of the three failure paths, which the
caller turns into a warning. -/
def getFileCommit (listCommits : Option (List String))
    (getCommit : String → Option CommitData) : Option CommitData :=
  match listCommits with
  | none => none
  | some [] => none
  | some (commitSHA :: _) => getCommit commitSHA

/-- Environment for one invocation of `readFile`: the `GetContents` response
and the scripts for the commit-metadata calls. -/
structure ReadFileEnv where
  getContents : GetContentsResult
  getCommit : String → Option CommitData
  listCommits : Option (List String)

/-- Go `readFile` (resource_repository_file.go:753-870).  Classifies the
`GetContents` error by HTTP status: 429 adds the fatal "Rate Limit Exceeded"
error, 404 clears the model's ID with no diagnostic, anything else adds
"Error reading file"; a nil file content also clears the ID.  On success the
model's content, repository, file and blob SHA are populated, the `ref` is
recovered from the content URL's query string (parse failures add warnings),
and commit metadata is fetched (failures add a warning). -/
def readFile (env : ReadFileEnv) (repoName filePath : String) (m : FileModel) :
    FileModel × List Diag :=
  match env.getContents.err with
  | some e =>
    if e.status = some 429 then (m, [errDiag "Rate Limit Exceeded"])
    else if e.status = some 404 then ({m with id := TFString.value ""}, [])
    else (m, [errDiag "Error reading file"])
  | none =>
    match env.getContents.fc with
    | none => ({m with id := TFString.value ""}, [])
    | some fcd =>
      match fcd.content with
      | none => (m, [errDiag "Error reading file content"])
      | some content =>
        let m1 := {m with content := TFString.value content,
                          repository := TFString.value repoName,
                          file := TFString.value filePath,
                          sha := TFString.value fcd.sha}
        let step :=
          match fcd.urlParse with
          | .parseErr => (m1, [warnDiag "Error parsing file URL"])
          | .queryErr => (m1, [warnDiag "Error parsing query string"])
          | .ok none => ({m1 with ref := TFString.null}, ([] : List Diag))
          | .ok (some r) => ({m1 with ref := TFString.value r}, ([] : List Diag))
        let m2 := step.1
        let ws := step.2
        let ref0 := m2.ref.valueString
        let ref := if ref0 = "" && m2.branch.known then m2.branch.valueString else ref0
        if ref = "" then (m2, ws)
        else
          let commitRes : Option CommitData :=
            if m2.commitSHA.known then env.getCommit m2.commitSHA.valueString
            else getFileCommit env.listCommits env.getCommit
          match commitRes with
          | none => (m2, ws ++ [warnDiag "Error fetching commit information"])
          | some cd =>
            let m3 := {m2 with commitSHA := TFString.value cd.sha}
            match cd.commit with
            | none => (m3, ws)
            | some det =>
              let m4 :=
                if m3.commitMessage.known then m3
                else {m3 with commitMessage := TFString.value det.message}
              match det.committer with
              | none => (m4, ws)
              | some nameEmail =>
                if nameEmail.1 != "GitHub" && nameEmail.2 != "noreply@github.com"
                    && m4.commitAuthor.known && m4.commitEmail.known then
                  ({m4 with commitAuthor := TFString.value nameEmail.1,
                            commitEmail := TFString.value nameEmail.2}, ws)
                else (m4, ws)

/-! ## Pull request resource (`resource_repository_pull_request_auto_merge`) -/

/-- A `*github.PullRequestBranch`: branch name and tip SHA. -/
structure RefInfo where
  ref : String
  sha : String
  deriving DecidableEq, Repr

/-- A `*github.PullRequest` as observed through the getters the resource
uses.  `mergeable` is the tri-state `Mergeable *bool` (nil = not yet
computed); `mergedAt` is the RFC3339-formatted merge timestamp, `none` when
`GetMergedAt().IsZero()`; `head`/`base` may be nil. -/
structure PRData where
  number : Int
  title : String
  body : String
  state : String
  merged : Bool
  maintainerCanModify : Bool
  mergeable : Option Bool
  mergedAt : Option String
  mergeCommitSHA : String
  head : Option RefInfo
  base : Option RefInfo
  deriving DecidableEq, Repr

/-- Getter `pr.GetHead().GetRef()` with nil-safety. -/
def PRData.getHeadRef (pr : PRData) : String := (pr.head.map (·.ref)).getD ""

/-- Getter `pr.GetHead().GetSHA()` with nil-safety. -/
def PRData.getHeadSHA (pr : PRData) : String := (pr.head.map (·.sha)).getD ""

/-- Getter `pr.GetBase().GetRef()` with nil-safety. -/
def PRData.getBaseRef (pr : PRData) : String := (pr.base.map (·.ref)).getD ""

/-- The `repositoryPullRequestResourceModel` state/plan record. -/
structure PRModel where
  repository : TFString
  baseRef : TFString
  headRef : TFString
  title : TFString
  body : TFString
  mergeWhenReady : TFBool
  mergeMethod : TFString
  waitForChecks : TFBool
  autoDeleteBranch : TFBool
  maintainerCanModify : TFBool
  baseSHA : TFString
  headSHA : TFString
  number : TFInt
  state : TFString
  merged : TFBool
  mergedAt : TFString
  mergeCommitSHA : TFString
  id : TFString
  deriving DecidableEq, Repr

/-- Go `readPullRequest` (part_006:627-674).  A 404 from `PullRequests.Get`
clears the model's ID with no diagnostic; any other error adds
"Error reading pull request"; otherwise the model is refreshed from the
response. -/
def readPullRequest (getPR : Except CallErr PRData) (repoName : String)
    (m : PRModel) : PRModel × List Diag :=
  match getPR with
  | .error e =>
    if e.status = some 404 then ({m with id := TFString.value ""}, [])
    else (m, [errDiag "Error reading pull request"])
  | .ok pr =>
    let m1 := {m with repository := TFString.value repoName,
                      number := TFInt.value pr.number,
                      title := TFString.value pr.title,
                      body := TFString.value pr.body,
                      state := TFString.value pr.state,
                      merged := TFBool.value pr.merged,
                      maintainerCanModify := TFBool.value pr.maintainerCanModify}
    let m2 :=
      match pr.mergedAt with
      | some t => if pr.merged then {m1 with mergedAt := TFString.value t}
                  else {m1 with mergedAt := TFString.null}
      | none => {m1 with mergedAt := TFString.null}
    let m3 :=
      if pr.mergeCommitSHA != "" && pr.merged then
        {m2 with mergeCommitSHA := TFString.value pr.mergeCommitSHA}
      else {m2 with mergeCommitSHA := TFString.null}
    let m4 :=
      match pr.head with
      | some h => {m3 with headRef := TFString.value h.ref, headSHA := TFString.value h.sha}
      | none => m3
    let m5 :=
      match pr.base with
      | some b => {m4 with baseRef := TFString.value b.ref, baseSHA := TFString.value b.sha}
      | none => m4
    (m5, [])

/-- Go `findExistingPR` (part_006:838-858): among the pull requests listed for
the repository, return the first whose base and head refs both match. -/
def findExistingPR (prs : List PRData) (baseRef headRef : String) : Option PRData :=
  prs.find? (fun pr => pr.getBaseRef == baseRef && pr.getHeadRef == headRef)

/-- Go `strings.Contains`: `pat` occurs as a contiguous substring of `s`. -/
def strContains (s pat : String) : Bool :=
  s.toList.tails.any (fun t => pat.toList.isPrefixOf t)

/-- A git reference as returned by `Git.GetRef`: `ref.GetObject().GetSHA()`
with nil-safety for the object and its SHA. -/
structure GitRefData where
  objectSHA : Option String
  deriving DecidableEq, Repr

/-- Go `getBranchSHAs` (part_006:860-878): fetch both branch refs and return
their tip SHAs (`GetObject().GetSHA()`, `""` when absent); each fetch error is
wrapped with the branch name. -/
def getBranchSHAs (baseRefRes headRefRes : Except CallErr GitRefData)
    (baseRef headRef : String) : Except String (String × String) :=
  match baseRefRes with
  | .error e => .error ("unable to get base branch " ++ baseRef ++ ": " ++ e.msg)
  | .ok b =>
    match headRefRes with
    | .error e => .error ("unable to get head branch " ++ headRef ++ ": " ++ e.msg)
    | .ok h => .ok (b.objectSHA.getD "", h.objectSHA.getD "")

/-- Environment for the decision phase of the pull-request resource's
`Create`: responses of `PullRequests.List`, the reopening
`PullRequests.Edit`, the two `Git.GetRef` calls, and `PullRequests.Create`. -/
structure PRCreateEnv where
  listPRs : Except CallErr (List PRData)
  editPR : Except CallErr PRData
  baseRefRes : Except CallErr GitRefData
  headRefRes : Except CallErr GitRefData
  createPR : Except CallErr PRData

/-- Result of the decision phase of `Create`: either an error diagnostic
summary, or the pull request the resource settles on together with the state
ID (`repository:number`), the number, whether `PullRequests.Create` was
called (`createdNew`) and whether the existing PR was reopened. -/
inductive PRCreateResult
  | err (summary : String)
  | ok (pr : PRData) (id : String) (number : Int) (createdNew : Bool) (reopened : Bool)
  deriving DecidableEq, Repr

/-- The number the decision phase settles on, when it succeeds. -/
def PRCreateResult.numberOf : PRCreateResult → Option Int
  | .err _ => none
  | .ok _ _ n _ _ => some n

/-- Whether the decision phase called `PullRequests.Create`. -/
def PRCreateResult.createdNewPR : PRCreateResult → Bool
  | .err _ => false
  | .ok _ _ _ c _ => c

/-- The decision phase of the pull-request resource's `Create`
(part_006:216-314): reject equal base and head refs; look for an existing
pull request with the same refs; reopen it when it is closed and not merged,
adopt it otherwise, setting the ID to `repository:number`; only when no
existing pull request matches are the branch SHAs compared and
`PullRequests.Create` called, with a dedicated diagnostic for a 422 whose
message mentions "already exists" or "No commits between". -/
def prCreateCore (env : PRCreateEnv) (repoName baseRef headRef : String) :
    PRCreateResult :=
  if baseRef = headRef then .err "Invalid Configuration"
  else
    match env.listPRs with
    | .error _ => .err "Error checking for existing pull request"
    | .ok prs =>
      match findExistingPR prs baseRef headRef with
      | some existing =>
        if existing.state == "closed" && !existing.merged then
          match env.editPR with
          | .error _ => .err "Error reopening pull request"
          | .ok reopenedPR =>
            .ok reopenedPR (repoName ++ ":" ++ toString reopenedPR.number)
              reopenedPR.number false true
        else
          .ok existing (repoName ++ ":" ++ toString existing.number)
            existing.number false false
      | none =>
        match getBranchSHAs env.baseRefRes env.headRefRes baseRef headRef with
        | .error _ => .err "Error checking branch differences"
        | .ok shas =>
          if shas.1 = shas.2 then .err "No Differences"
          else
            match env.createPR with
            | .error e =>
              if e.status = some 422
                  && (strContains e.msg "already exists"
                      || strContains e.msg "No commits between") then
                .err "Pull Request Already Exists or No Changes"
              else .err "Error creating pull request"
            | .ok pr =>
              .ok pr (repoName ++ ":" ++ toString pr.number) pr.number true false

/-! ### Bounded polling: `waitForChecks` and `mergeWhenReady` -/

/-- A commit status from `Repositories.ListStatuses`: its state
(`pending` / `success` / `error` / `failure`) and context name. -/
structure CommitStatus where
  state : String
  context : String
  deriving DecidableEq, Repr

/-- Outcome of the status scan in `waitForChecks` (part_006:896-906): first
`pending` flips `allPassed` and breaks; first `error`/`failure` returns
immediately; otherwise everything passed. -/
inductive StatusScan
  | failed (ctx : String)
  | pendingFound
  | allPassed
  deriving DecidableEq, Repr

/-- The `for _, status := range statuses` scan of `waitForChecks`. -/
def scanStatuses : List CommitStatus → StatusScan
  | [] => .allPassed
  | s :: rest =>
    if s.state == "pending" then .pendingFound
    else if s.state == "error" || s.state == "failure" then .failed s.context
    else scanStatuses rest

/-- Environment for one run of `waitForChecks`: per-attempt responses of
`PullRequests.Get` and of `Repositories.ListStatuses` (the latter given the
head SHA taken from the fetched pull request). -/
structure ChecksEnv where
  getPR : Nat → Except CallErr PRData
  listStatuses : Nat → String → Except CallErr (List CommitStatus)

/-- Observable result of one bounded polling loop: the number of loop
iterations entered, the durations (in seconds) of the sleeps performed, and
the final result. -/
structure PollResult where
  attempts : Nat
  sleeps : List Nat
  result : Except String Unit
  deriving Repr

/-- The `maxAttempts` constant of `waitForChecks`. -/
def checksMaxAttempts : Nat := 60

/-- The `maxAttempts` constant of `mergeWhenReady`. -/
def mergeMaxAttempts : Nat := 30

/-- One iteration of `waitForChecks` (part_006:884-919) expressed as a step:
`none` means the iteration fell through to `attempt++; time.Sleep(5s)`. -/
def checksIter (env : ChecksEnv) (i : Nat) : Option (Except String Unit) :=
  match env.getPR i with
  | .error e => some (.error ("unable to get pull request: " ++ e.msg))
  | .ok pr =>
    match env.listStatuses i pr.getHeadSHA with
    | .error e => some (.error ("unable to get status checks: " ++ e.msg))
    | .ok statuses =>
      match scanStatuses statuses with
      | .failed ctx => some (.error ("status check " ++ ctx ++ " failed"))
      | .allPassed =>
        if statuses.length > 0 then some (.ok ())
        else some (.ok ())
      | .pendingFound =>
        if statuses.length = 0 then some (.ok ())
        else none

/-- The `waitForChecks` polling loop (part_006:880-922), with `fuel` the
remaining allowed iterations; on exhaustion it returns the
"status checks did not complete" error. -/
def waitForChecksLoop (env : ChecksEnv) : Nat → Nat → PollResult
  | 0, _ =>
    ⟨0, [], .error ("status checks did not complete after "
        ++ toString checksMaxAttempts ++ " attempts")⟩
  | fuel + 1, i =>
    match checksIter env i with
    | some res => ⟨1, [], res⟩
    | none =>
      let r := waitForChecksLoop env fuel (i + 1)
      ⟨r.attempts + 1, 5 :: r.sleeps, r.result⟩

/-- Entry point of `waitForChecks`, entered with `attempt = 0`. -/
def waitForChecks (env : ChecksEnv) : PollResult :=
  waitForChecksLoop env checksMaxAttempts 0

/-- Repository merge settings observed via `Repositories.Get`. -/
structure RepoSettings where
  allowSquashMerge : Bool
  allowMergeCommit : Bool
  allowRebaseMerge : Bool
  deriving DecidableEq, Repr

/-- The merge-method validation switch of `mergeWhenReady`
(part_006:743-784): fall back to an allowed method, or fail when no
alternative is enabled. -/
def resolveMergeMethodWith (rp : RepoSettings) (mm : String) : Except String String :=
  match mm with
  | "squash" =>
    if rp.allowSquashMerge then .ok "squash"
    else if rp.allowMergeCommit then .ok "merge"
    else if rp.allowRebaseMerge then .ok "rebase"
    else .error "squash merge is not allowed on this repository and no alternative merge methods are enabled"
  | "rebase" =>
    if rp.allowRebaseMerge then .ok "rebase"
    else if rp.allowMergeCommit then .ok "merge"
    else if rp.allowSquashMerge then .ok "squash"
    else .error "rebase merge is not allowed on this repository and no alternative merge methods are enabled"
  | "merge" =>
    if rp.allowMergeCommit then .ok "merge"
    else if rp.allowSquashMerge then .ok "squash"
    else if rp.allowRebaseMerge then .ok "rebase"
    else .error "merge commit is not allowed on this repository and no alternative merge methods are enabled"
  | other => .ok other

/-- Environment for one `mergeWhenReady` attempt: the `PullRequests.Get`
response, the environment of the nested `waitForChecks` run, the
`CreateReview` result (only logged), the `Repositories.Get` error and value
(inspected independently by the Go code), the `PullRequests.Merge` result per
merge method, and the `Git.DeleteRef` result (only logged). -/
structure MergeAttemptEnv where
  getPR : Except CallErr PRData
  checks : ChecksEnv
  approve : Option CallErr
  getRepoErr : Option CallErr
  getRepoVal : Option RepoSettings
  merge : String → Option CallErr
  deleteRef : Option CallErr

/-- The merge section of a `mergeWhenReady` iteration (part_006:727-832),
entered once the pull request is mergeable and checks have passed: approve
(result only logged), default the merge method to "merge", validate it
against the repository settings, merge, retry an alternative method on a 405,
and delete the head branch when requested (result only logged). -/
def mergeBody (a : MergeAttemptEnv) (mm0 : String) (_autoDelete : Bool) :
    Except String Unit :=
  let mm1 := if mm0 = "" then "merge" else mm0
  let resolved : Except String String :=
    match a.getRepoErr, a.getRepoVal with
    | none, some rp => resolveMergeMethodWith rp mm1
    | _, _ => .ok mm1
  match resolved with
  | .error msg => .error msg
  | .ok mm =>
    match a.merge mm with
    | none => .ok ()
    | some e =>
      let retried : Option CallErr :=
        if e.status = some 405 then
          match a.getRepoVal with
          | some rp =>
            if mm != "merge" && rp.allowMergeCommit then a.merge "merge"
            else if mm != "squash" && rp.allowSquashMerge then a.merge "squash"
            else if mm != "rebase" && rp.allowRebaseMerge then a.merge "rebase"
            else some e
          | none => some e
        else some e
      match retried with
      | none => .ok ()
      | some e2 => .error ("unable to merge pull request: " ++ e2.msg)

/-- One iteration of `mergeWhenReady` (part_006:688-833) as a step: `none`
means the iteration fell through to `attempt++; time.Sleep(5s)` (mergeability
not yet computed, not mergeable, or checks not ready). -/
def mergeIter (a : MergeAttemptEnv) (waitChecks : Bool) (mm0 : String)
    (autoDelete : Bool) : Option (Except String Unit) :=
  match a.getPR with
  | .error e => some (.error ("unable to get pull request: " ++ e.msg))
  | .ok pr =>
    if pr.state != "open" then
      if pr.merged then some (.ok ())
      else some (.error "pull request is not open")
    else
      match pr.mergeable with
      | none => none
      | some false => none
      | some true =>
        if waitChecks then
          match (waitForChecks a.checks).result with
          | .error _ => none
          | .ok _ => some (mergeBody a mm0 autoDelete)
        else some (mergeBody a mm0 autoDelete)

/-- The `mergeWhenReady` polling loop (part_006:684-836), with `fuel` the
remaining allowed iterations; on exhaustion it returns the
"pull request not ready to merge" error. -/
def mergeWhenReadyLoop (env : Nat → MergeAttemptEnv) (waitChecks : Bool)
    (mm0 : String) (autoDelete : Bool) : Nat → Nat → PollResult
  | 0, _ =>
    ⟨0, [], .error ("pull request not ready to merge after "
        ++ toString mergeMaxAttempts ++ " attempts")⟩
  | fuel + 1, i =>
    match mergeIter (env i) waitChecks mm0 autoDelete with
    | some res => ⟨1, [], res⟩
    | none =>
      let r := mergeWhenReadyLoop env waitChecks mm0 autoDelete fuel (i + 1)
      ⟨r.attempts + 1, 5 :: r.sleeps, r.result⟩

/-- Entry point of `mergeWhenReady`, entered with `attempt = 0`, taking its flags from the
plan model as the Go method does. -/
def mergeWhenReady (env : Nat → MergeAttemptEnv) (plan : PRModel) : PollResult :=
  mergeWhenReadyLoop env plan.waitForChecks.valueBool plan.mergeMethod.valueString
    plan.autoDeleteBranch.valueBool mergeMaxAttempts 0

/-! ## Provider configuration (`Configure` of `githubxProvider`, part_006) -/

/-- The `app_auth` nested block of the provider schema. -/
structure AppAuthModel where
  id : TFInt
  installationId : TFInt
  pemFile : TFString
  deriving DecidableEq, Repr

/-- The `githubxProviderModel` configuration record. -/
structure ProviderConfigModel where
  token : TFString
  oauthToken : TFString
  appAuth : Option AppAuthModel
  baseURL : TFString
  owner : TFString
  insecure : TFBool
  deriving DecidableEq, Repr

/-- Environment of one provider `Configure` run: the environment variables,
the GitHub CLI invocation, the base-URL parse outcome, the GitHub App token
exchange, and the authenticated-user lookup. -/
structure ProviderEnv where
  envGithubToken : String
  cliOutput : Option String
  envBaseURL : String
  baseURLParseOk : Bool
  appTokenRes : Except Diag String
  envInsecure : String
  envOwner : String
  userLogin : Option String

/-- Go `getGitHubCLIToken` (part_006:1205-1219): run `gh auth token`
(`cliOutput = none` when the command fails), trim the output, and return it
when non-empty. -/
def getGitHubCLIToken (cliOutput : Option String) : String :=
  match cliOutput with
  | none => ""
  | some out =>
    let token := out.trim
    if token != "" then token else ""

/-- Result of provider `Configure`: either an error diagnostic, or the
authentication token installed in the HTTP client (`none` = unauthenticated
client), the insecure flag, the resolved owner, and the chosen base URL
string (before the trailing-slash normalization of its path). -/
inductive ProviderConfigureResult
  | err (d : Diag)
  | ok (auth : Option String) (insecure : Bool) (owner : String) (baseURL : String)
  deriving DecidableEq, Repr

/-- Method `Configure` of `githubxProvider` (part_006:1047-1181).  Token precedence:
`token` attribute, `oauth_token` attribute, `GITHUB_TOKEN`, GitHub CLI, then
— only when all of those are empty and an `app_auth` block is present — the
GitHub App installation token; with no token at all an unauthenticated client
is created.  The base URL defaults to `GITHUB_BASE_URL` then
`https://api.github.com/`; a parse failure aborts with "Invalid Base URL".
The owner falls back to `GITHUB_OWNER` and then, when a token is available,
to the authenticated user's login. -/
def providerConfigure (config : ProviderConfigModel) (env : ProviderEnv) :
    ProviderConfigureResult :=
  let token0 := config.token.valueString
  let token1 := if token0 = "" then config.oauthToken.valueString else token0
  let token2 := if token1 = "" then env.envGithubToken else token1
  let token3 :=
    if token2 = "" then
      let ghToken := getGitHubCLIToken env.cliOutput
      if ghToken != "" then ghToken else token2
    else token2
  let baseURLStr0 := config.baseURL.valueString
  let baseURLStr1 := if baseURLStr0 = "" then env.envBaseURL else baseURLStr0
  let baseURLStr := if baseURLStr1 = "" then "https://api.github.com/" else baseURLStr1
  if !env.baseURLParseOk then .err (errDiag "Invalid Base URL")
  else
    let appStep : Except Diag String :=
      if token3 = "" && config.appAuth.isSome then
        match env.appTokenRes with
        | .error d => .error d
        | .ok appToken => .ok (if appToken != "" then appToken else token3)
      else .ok token3
    match appStep with
    | .error d => .err d
    | .ok token =>
      let insecure := config.insecure.valueBool || (env.envInsecure == "true")
      let auth := if token != "" then some token else none
      let owner0 := config.owner.valueString
      let owner1 := if owner0 = "" then env.envOwner else owner0
      let owner :=
        if owner1 = "" && token != "" then (env.userLogin.getD "") else owner1
      .ok auth insecure owner baseURLStr

/-! ## `Configure` of the resources and data sources -/

/-- Opaque handle standing for a `*github.Client`; only identity matters. -/
abbrev GHClient := Nat

/-- The `githubxClientData` record handed from the provider to resources and
data sources.  Its `Client` field is itself a pointer and may be nil. -/
structure GithubxClientData where
  client : Option GHClient
  owner : String
  deriving DecidableEq, Repr

/-- The value `req.ProviderData`, dynamically typed: nil, a
`githubxClientData`, or a value of any other type (whose name feeds the `%T`
in the diagnostic detail). -/
inductive ProviderData
  | null
  | clientData (cd : GithubxClientData)
  | otherType (typeName : String)
  deriving DecidableEq, Repr

/-- The client/owner fields of a resource or data-source struct. -/
structure ClientOwnerState where
  client : Option GHClient
  owner : String
  deriving DecidableEq, Repr

/-- Method `Configure` of `repositoryFileResource`
(resource_repository_file.go:152-168). -/
def repositoryFileResourceConfigure (pd : ProviderData) (st : ClientOwnerState) :
    ClientOwnerState × List Diag :=
  match pd with
  | .null => (st, [])
  | .otherType _ => (st, [errDiag "Unexpected Resource Configure Type"])
  | .clientData cd => (⟨cd.client, cd.owner⟩, [])

/-- Method `Configure` of `repositoryBranchResource`
(data_source_repository.go:867-884). -/
def repositoryBranchResourceConfigure (pd : ProviderData) (st : ClientOwnerState) :
    ClientOwnerState × List Diag :=
  match pd with
  | .null => (st, [])
  | .otherType _ => (st, [errDiag "Unexpected Resource Configure Type"])
  | .clientData cd => (⟨cd.client, cd.owner⟩, [])

/-- Method `Configure` of `repositoryPullRequestResource` (part_006:172-188). -/
def repositoryPullRequestResourceConfigure (pd : ProviderData)
    (st : ClientOwnerState) : ClientOwnerState × List Diag :=
  match pd with
  | .null => (st, [])
  | .otherType _ => (st, [errDiag "Unexpected Resource Configure Type"])
  | .clientData cd => (⟨cd.client, cd.owner⟩, [])

/-- The fields of `repositoryResource`, which additionally caches the
authenticated user. -/
structure RepoResourceState where
  client : Option GHClient
  owner : String
  authenticatedUser : String
  deriving DecidableEq, Repr

/-- Method `Configure` of `repositoryResource` (resource_repository.go:388-414):
after installing the client data it additionally fetches the authenticated
user (`userLogin = none` models a failed or empty lookup). -/
def repositoryResourceConfigure (pd : ProviderData) (userLogin : Option String)
    (st : RepoResourceState) : RepoResourceState × List Diag :=
  match pd with
  | .null => (st, [])
  | .otherType _ => (st, [errDiag "Unexpected Resource Configure Type"])
  | .clientData cd =>
    let st1 := {st with client := cd.client, owner := cd.owner}
    match cd.client, userLogin with
    | some _, some login => ({st1 with authenticatedUser := login}, [])
    | _, _ => (st1, [])

/-- Method `Configure` of `userDataSource` (part_003:140-156); this data source
stores only the client. -/
def userDataSourceConfigure (pd : ProviderData) (client : Option GHClient) :
    Option GHClient × List Diag :=
  match pd with
  | .null => (client, [])
  | .otherType _ => (client, [errDiag "Unexpected Data Source Configure Type"])
  | .clientData cd => (cd.client, [])

/-- Method `Configure` of `repositoryDataSource` (data_source_repository.go:319-336). -/
def repositoryDataSourceConfigure (pd : ProviderData) (st : ClientOwnerState) :
    ClientOwnerState × List Diag :=
  match pd with
  | .null => (st, [])
  | .otherType _ => (st, [errDiag "Unexpected Data Source Configure Type"])
  | .clientData cd => (⟨cd.client, cd.owner⟩, [])

/-- Method `Configure` of `repositoryBranchDataSource`
(data_source_repository_branch.go:89-106). -/
def repositoryBranchDataSourceConfigure (pd : ProviderData) (st : ClientOwnerState) :
    ClientOwnerState × List Diag :=
  match pd with
  | .null => (st, [])
  | .otherType _ => (st, [errDiag "Unexpected Data Source Configure Type"])
  | .clientData cd => (⟨cd.client, cd.owner⟩, [])

/-- Method `Configure` of `repositoryFileDataSource` (part_005:106-122). -/
def repositoryFileDataSourceConfigure (pd : ProviderData) (st : ClientOwnerState) :
    ClientOwnerState × List Diag :=
  match pd with
  | .null => (st, [])
  | .otherType _ => (st, [errDiag "Unexpected Data Source Configure Type"])
  | .clientData cd => (⟨cd.client, cd.owner⟩, [])

/-! ## `splitRepoFullName` (data_source_repository.go:538-545) -/

/-- Go `strings.Split` for a one-character separator: split around each
occurrence of `c`.  As in Go, the empty list of characters yields `[[]]`. -/
def splitOnChar (c : Char) : List Char → List (List Char)
  | [] => [[]]
  | x :: xs =>
    if x = c then [] :: splitOnChar c xs
    else
      match splitOnChar c xs with
      | h :: t => (x :: h) :: t
      | [] => [[x]]

/-- The `(string, string, error)` triple returned by `splitRepoFullName`. -/
structure SplitResult where
  owner : String
  repo : String
  isErr : Bool
  deriving DecidableEq, Repr

/-- Go `splitRepoFullName`: split the full name on `"/"`; exactly two parts give
owner and repo, anything else gives empty strings and an error.  (Splitting
on the ASCII `/` byte-wise as Go does coincides with splitting the character
list, since `/` never occurs inside a multi-byte UTF-8 sequence.) -/
def splitRepoFullName (fullName : String) : SplitResult :=
  match splitOnChar '/' fullName.toList with
  | [a, b] => ⟨⟨a⟩, ⟨b⟩, false⟩
  | _ => ⟨"", "", true⟩

/-- The authentication component of a successful provider `Configure`
(`none` when no result, `some auth` where `auth = none` means an
unauthenticated client). -/
def ProviderConfigureResult.authOf : ProviderConfigureResult → Option (Option String)
  | .err _ => none
  | .ok a _ _ _ => some a

/-- The empty (all-null) file model, used to instantiate witnesses. -/
def emptyFileModel : FileModel :=
  ⟨.null, .null, .null, .null, .null, .null, .null, .null, .null, .null,
   .null, .null, .null, .null, .null⟩

/-- The empty (all-null) pull-request model, used to instantiate witnesses. -/
def emptyPRModel : PRModel :=
  ⟨.null, .null, .null, .null, .null, .null, .null, .null, .null, .null,
   .null, .null, .null, .null, .null, .null, .null, .null⟩

/-! ## Helper lemmas about the retry loops -/

/-- Characterization of the Update retry loop: at least one and at most `fuel`
attempts are made, the first attempt carries the initial `opts.SHA`, and every
later attempt follows a 409 whose follow-up `GetContents` succeeded with a
file, whose SHA is the precondition of that later attempt. -/
theorem updateFileLoop_spec (create : CreateScript) (get : GetScript) :
    ∀ (fuel : Nat), 0 < fuel → ∀ (i : Nat) (sha : Option String),
      1 ≤ (updateFileLoop create get fuel i sha).1.length
      ∧ (updateFileLoop create get fuel i sha).1.length ≤ fuel
      ∧ (updateFileLoop create get fuel i sha).1[0]? = some sha
      ∧ ∀ j, j + 1 < (updateFileLoop create get fuel i sha).1.length →
          (∃ e, create (i + j) = Except.error e ∧ e.status = some 409)
          ∧ (get (i + j)).err = none
          ∧ ∃ fcd, (get (i + j)).fc = some fcd
              ∧ (updateFileLoop create get fuel i sha).1[j + 1]? = some (some fcd.sha) := by
  intro fuel
  induction fuel with
  | zero => intro h; exact absurd h (by omega)
  | succ n ih =>
    intro _ i sha
    simp only [updateFileLoop]
    cases hc : create i with
    | ok c => simp
    | error e =>
      by_cases hs : e.status = some 409
      · simp only [hs, if_pos rfl]
        cases hge : (get i).err with
        | some re => simp
        | none =>
          cases hgf : (get i).fc with
          | none => simp
          | some fcd =>
            by_cases hn : n = 0
            · simp [hn]
            · have hpos : 0 < n := Nat.pos_of_ne_zero hn
              obtain ⟨ih1, ih2, ih3, ih4⟩ := ih hpos (i + 1) (some fcd.sha)
              simp only [if_neg hn]
              refine ⟨by simp, by simpa using Nat.succ_le_succ ih2, by simp, ?_⟩
              intro j hj
              cases j with
              | zero =>
                refine ⟨⟨e, hc, hs⟩, by simpa using hge, fcd, by simpa using hgf, ?_⟩
                simpa using ih3
              | succ k =>
                have hk : k + 1 < (updateFileLoop create get n (i + 1) (some fcd.sha)).1.length := by
                  simpa using hj
                obtain ⟨⟨e', hc', hs'⟩, hge', fcd', hgf', hidx'⟩ := ih4 k hk
                have harith : i + (k + 1) = i + 1 + k := by omega
                rw [harith]
                exact ⟨⟨e', hc', hs'⟩, hge', fcd', hgf', by simpa using hidx'⟩
      · simp [if_neg hs]

/-- Characterization of the Create retry loop: at least one and at most `fuel`
attempts, the first attempt carries the seeded `opts.SHA`, and every later
attempt follows a 409; when the follow-up fetch succeeded with a file the
retry (which then requires `overwrite_on_create`) carries the fresh SHA,
otherwise the retry repeats the previous SHA. -/
theorem createFileLoop_spec (create : CreateScript) (get : GetScript) (overwrite : Bool) :
    ∀ (fuel : Nat), 0 < fuel → ∀ (i : Nat) (sha : Option String),
      1 ≤ (createFileLoop create get overwrite fuel i sha).1.length
      ∧ (createFileLoop create get overwrite fuel i sha).1.length ≤ fuel
      ∧ (createFileLoop create get overwrite fuel i sha).1[0]? = some sha
      ∧ ∀ j, j + 1 < (createFileLoop create get overwrite fuel i sha).1.length →
          (∃ e, create (i + j) = Except.error e ∧ e.status = some 409)
          ∧ (((get (i + j)).err = none
                ∧ (∃ fcd, (get (i + j)).fc = some fcd
                    ∧ overwrite = true
                    ∧ (createFileLoop create get overwrite fuel i sha).1[j + 1]?
                        = some (some fcd.sha)))
              ∨ (((get (i + j)).err ≠ none ∨ (get (i + j)).fc = none)
                  ∧ (createFileLoop create get overwrite fuel i sha).1[j + 1]?
                      = (createFileLoop create get overwrite fuel i sha).1[j]?)) := by
  intro fuel
  induction fuel with
  | zero => intro h; exact absurd h (by omega)
  | succ n ih =>
    intro _ i sha
    simp only [createFileLoop]
    cases hc : create i with
    | ok c => simp
    | error e =>
      by_cases hs : e.status = some 409
      · simp only [hs, if_pos rfl]
        cases hge : (get i).err with
        | some re =>
          by_cases hn : n = 0
          · simp [hn]
          · have hpos : 0 < n := Nat.pos_of_ne_zero hn
            obtain ⟨ih1, ih2, ih3, ih4⟩ := ih hpos (i + 1) sha
            simp only [if_neg hn]
            refine ⟨by simp, by simpa using Nat.succ_le_succ ih2, by simp, ?_⟩
            intro j hj
            cases j with
            | zero =>
              refine ⟨⟨e, hc, hs⟩, Or.inr ⟨Or.inl (by simp [hge]), ?_⟩⟩
              simpa using ih3
            | succ k =>
              have hk : k + 1 < (createFileLoop create get overwrite n (i + 1) sha).1.length := by
                simpa using hj
              obtain ⟨he', hrest⟩ := ih4 k hk
              have harith : i + (k + 1) = i + 1 + k := by omega
              rw [harith]
              refine ⟨he', ?_⟩
              rcases hrest with ⟨h1, fcd', h2, h3, h4⟩ | ⟨h1, h2⟩
              · exact Or.inl ⟨h1, fcd', h2, h3, by simpa using h4⟩
              · exact Or.inr ⟨h1, by simpa using h2⟩
        | none =>
          cases hgf : (get i).fc with
          | none =>
            by_cases hn : n = 0
            · simp [hn]
            · have hpos : 0 < n := Nat.pos_of_ne_zero hn
              obtain ⟨ih1, ih2, ih3, ih4⟩ := ih hpos (i + 1) sha
              simp only [if_neg hn]
              refine ⟨by simp, by simpa using Nat.succ_le_succ ih2, by simp, ?_⟩
              intro j hj
              cases j with
              | zero =>
                refine ⟨⟨e, hc, hs⟩, Or.inr ⟨Or.inr (by simp [hgf]), ?_⟩⟩
                simpa using ih3
              | succ k =>
                have hk : k + 1 < (createFileLoop create get overwrite n (i + 1) sha).1.length := by
                  simpa using hj
                obtain ⟨he', hrest⟩ := ih4 k hk
                have harith : i + (k + 1) = i + 1 + k := by omega
                rw [harith]
                refine ⟨he', ?_⟩
                rcases hrest with ⟨h1, fcd', h2, h3, h4⟩ | ⟨h1, h2⟩
                · exact Or.inl ⟨h1, fcd', h2, h3, by simpa using h4⟩
                · exact Or.inr ⟨h1, by simpa using h2⟩
          | some fcd =>
            cases overwrite with
            | false => simp
            | true =>
              by_cases hn : n = 0
              · simp [hn]
              · have hpos : 0 < n := Nat.pos_of_ne_zero hn
                obtain ⟨ih1, ih2, ih3, ih4⟩ := ih hpos (i + 1) (some fcd.sha)
                simp only [if_neg hn]
                refine ⟨by simp, by simpa using Nat.succ_le_succ ih2, by simp, ?_⟩
                intro j hj
                cases j with
                | zero =>
                  refine ⟨⟨e, hc, hs⟩, Or.inl ⟨by simpa using hge, fcd, by simpa using hgf, by trivial, ?_⟩⟩
                  simpa using ih3
                | succ k =>
                  have hk : k + 1 < (createFileLoop create get true n (i + 1) (some fcd.sha)).1.length := by
                    simpa using hj
                  obtain ⟨he', hrest⟩ := ih4 k hk
                  have harith : i + (k + 1) = i + 1 + k := by omega
                  rw [harith]
                  refine ⟨he', ?_⟩
                  rcases hrest with ⟨h1, fcd', h2, h3, h4⟩ | ⟨h1, h2⟩
                  · exact Or.inl ⟨h1, fcd', h2, by trivial, by simpa using h4⟩
                  · exact Or.inr ⟨h1, by simpa using h2⟩
      · simp [if_neg hs]

/-- Characterization of the Delete retry loop: at least one and at most
`fuel` attempts, the first attempt carries the state's `opts.SHA`, and every
later attempt follows a 409 whose follow-up fetch was not a 404 error and
returned a file, whose SHA is the precondition of that later attempt. -/
theorem deleteFileLoop_spec (del : DeleteScript) (get : GetScript) :
    ∀ (fuel : Nat), 0 < fuel → ∀ (i : Nat) (sha : Option String),
      1 ≤ (deleteFileLoop del get fuel i sha).1.length
      ∧ (deleteFileLoop del get fuel i sha).1.length ≤ fuel
      ∧ (deleteFileLoop del get fuel i sha).1[0]? = some sha
      ∧ ∀ j, j + 1 < (deleteFileLoop del get fuel i sha).1.length →
          (∃ e, del (i + j) = some e ∧ e.status = some 409)
          ∧ readErrIsNotFound (get (i + j)).err = false
          ∧ ∃ fcd, (get (i + j)).fc = some fcd
              ∧ (deleteFileLoop del get fuel i sha).1[j + 1]? = some (some fcd.sha) := by
  intro fuel
  induction fuel with
  | zero => intro h; exact absurd h (by omega)
  | succ n ih =>
    intro _ i sha
    simp only [deleteFileLoop]
    cases hc : del i with
    | none => simp
    | some e =>
      by_cases h404 : e.status = some 404
      · simp [h404]
      · by_cases hs : e.status = some 409
        · simp only [if_neg h404, hs, if_pos rfl]
          cases hnf : readErrIsNotFound (get i).err with
          | true => simp
          | false =>
            cases hgf : (get i).fc with
            | none => simp
            | some fcd =>
              by_cases hn : n = 0
              · simp [hn]
              · have hpos : 0 < n := Nat.pos_of_ne_zero hn
                obtain ⟨ih1, ih2, ih3, ih4⟩ := ih hpos (i + 1) (some fcd.sha)
                simp only [if_neg hn]
                refine ⟨by simp, by simpa using Nat.succ_le_succ ih2, by simp, ?_⟩
                intro j hj
                cases j with
                | zero =>
                  refine ⟨⟨e, hc, hs⟩, by simpa using hnf, fcd, by simpa using hgf, ?_⟩
                  simpa using ih3
                | succ k =>
                  have hk : k + 1 < (deleteFileLoop del get n (i + 1) (some fcd.sha)).1.length := by
                    simpa using hj
                  obtain ⟨he', hnf', fcd', hgf', hidx'⟩ := ih4 k hk
                  have harith : i + (k + 1) = i + 1 + k := by omega
                  rw [harith]
                  exact ⟨he', hnf', fcd', hgf', by simpa using hidx'⟩
        · simp [if_neg h404, if_neg hs]

/-- A first error other than 409 makes the Update loop exit at once with the
failure surfaced. -/
theorem updateFileLoop_first_error (create : CreateScript) (get : GetScript)
    (fuel i : Nat) (sha : Option String) (e : CallErr) (hf : 0 < fuel)
    (hc : create i = .error e) (hs : e.status ≠ some 409) :
    updateFileLoop create get fuel i sha = ([sha], .failure e) := by
  cases fuel with
  | zero => omega
  | succ n => simp [updateFileLoop, hc, if_neg hs]

/-- A first error other than 409 makes the Create loop exit at once with the
failure surfaced. -/
theorem createFileLoop_first_error (create : CreateScript) (get : GetScript)
    (overwrite : Bool) (fuel i : Nat) (sha : Option String) (e : CallErr) (hf : 0 < fuel)
    (hc : create i = .error e) (hs : e.status ≠ some 409) :
    createFileLoop create get overwrite fuel i sha = ([sha], .failure e) := by
  cases fuel with
  | zero => omega
  | succ n => simp [createFileLoop, hc, if_neg hs]

/-- A first error other than 404 or 409 makes the Delete loop exit at once
with the failure surfaced. -/
theorem deleteFileLoop_first_error (del : DeleteScript) (get : GetScript)
    (fuel i : Nat) (sha : Option String) (e : CallErr) (hf : 0 < fuel)
    (hc : del i = some e) (h404 : e.status ≠ some 404) (h409 : e.status ≠ some 409) :
    deleteFileLoop del get fuel i sha = ([sha], .failure e) := by
  cases fuel with
  | zero => omega
  | succ n => simp [deleteFileLoop, hc, if_neg h404, if_neg h409]

/-- On a 409 whose follow-up fetch finds the file, a Create without
`overwrite_on_create` reports "File Already Exists" at once. -/
theorem createFileLoop_already_exists (create : CreateScript) (get : GetScript)
    (fuel i : Nat) (sha : Option String) (e : CallErr) (fcd : FileContentData)
    (hf : 0 < fuel) (hc : create i = .error e) (hs : e.status = some 409)
    (hge : (get i).err = none) (hgf : (get i).fc = some fcd) :
    createFileLoop create get false fuel i sha = ([sha], .alreadyExistsErr) := by
  cases fuel with
  | zero => omega
  | succ n => simp [createFileLoop, hc, hs, hge, hgf]

/-! ## Helper lemmas about the polling loops -/

/-- Bounds for `waitForChecksLoop`: the number of iterations never exceeds the
fuel, every sleep lasts 5 seconds, there are no more sleeps than iterations,
and sleeping through the whole budget means the loop ended in the exhaustion
error. -/
theorem waitForChecksLoop_spec (env : ChecksEnv) :
    ∀ (fuel i : Nat),
      (waitForChecksLoop env fuel i).attempts ≤ fuel
      ∧ (waitForChecksLoop env fuel i).sleeps.length ≤ (waitForChecksLoop env fuel i).attempts
      ∧ (∀ d ∈ (waitForChecksLoop env fuel i).sleeps, d = 5)
      ∧ ((waitForChecksLoop env fuel i).sleeps.length = fuel →
          (waitForChecksLoop env fuel i).result
            = .error ("status checks did not complete after "
                ++ toString checksMaxAttempts ++ " attempts")) := by
  intro fuel
  induction fuel with
  | zero => intro i; simp [waitForChecksLoop]
  | succ n ih =>
    intro i
    simp only [waitForChecksLoop]
    cases hstep : checksIter env i with
    | some res => simp
    | none =>
      obtain ⟨ih1, ih2, ih3, ih4⟩ := ih (i + 1)
      refine ⟨by simpa using Nat.succ_le_succ ih1, by simpa using Nat.succ_le_succ ih2, ?_, ?_⟩
      · intro d hd
        rcases List.mem_cons.mp hd with h | h
        · exact h
        · exact ih3 d h
      · intro hlen
        exact ih4 (by simpa using hlen)

/-- Bounds for `mergeWhenReadyLoop`, analogous to `waitForChecksLoop_spec`. -/
theorem mergeWhenReadyLoop_spec (env : Nat → MergeAttemptEnv) (waitChecks : Bool)
    (mm0 : String) (autoDelete : Bool) :
    ∀ (fuel i : Nat),
      (mergeWhenReadyLoop env waitChecks mm0 autoDelete fuel i).attempts ≤ fuel
      ∧ (mergeWhenReadyLoop env waitChecks mm0 autoDelete fuel i).sleeps.length
          ≤ (mergeWhenReadyLoop env waitChecks mm0 autoDelete fuel i).attempts
      ∧ (∀ d ∈ (mergeWhenReadyLoop env waitChecks mm0 autoDelete fuel i).sleeps, d = 5)
      ∧ ((mergeWhenReadyLoop env waitChecks mm0 autoDelete fuel i).sleeps.length = fuel →
          (mergeWhenReadyLoop env waitChecks mm0 autoDelete fuel i).result
            = .error ("pull request not ready to merge after "
                ++ toString mergeMaxAttempts ++ " attempts")) := by
  intro fuel
  induction fuel with
  | zero => intro i; simp [mergeWhenReadyLoop]
  | succ n ih =>
    intro i
    simp only [mergeWhenReadyLoop]
    cases hstep : mergeIter (env i) waitChecks mm0 autoDelete with
    | some res => simp
    | none =>
      obtain ⟨ih1, ih2, ih3, ih4⟩ := ih (i + 1)
      refine ⟨by simpa using Nat.succ_le_succ ih1, by simpa using Nat.succ_le_succ ih2, ?_, ?_⟩
      · intro d hd
        rcases List.mem_cons.mp hd with h | h
        · exact h
        · exact ih3 d h
      · intro hlen
        exact ih4 (by simpa using hlen)

/-! ## Helper lemmas about `splitOnChar` and `prCreateCore` -/

/-- Go `strings.Split` never returns an empty slice. -/
theorem splitOnChar_ne_nil (c : Char) (l : List Char) : splitOnChar c l ≠ [] := by
  induction l with
  | nil => simp [splitOnChar]
  | cons x xs ih =>
    simp only [splitOnChar]
    by_cases hx : x = c
    · simp [hx]
    · cases h : splitOnChar c xs with
      | nil => exact absurd h ih
      | cons hd tl => simp [hx, h]

/-- The number of parts produced by `strings.Split` is the number of
separator occurrences plus one. -/
theorem splitOnChar_length (c : Char) (l : List Char) :
    (splitOnChar c l).length = l.count c + 1 := by
  induction l with
  | nil => simp [splitOnChar]
  | cons x xs ih =>
    simp only [splitOnChar]
    by_cases hx : x = c
    · simp [hx, List.count_cons, ih]
    · cases h : splitOnChar c xs with
      | nil => exact absurd h (splitOnChar_ne_nil c xs)
      | cons hd tl =>
        rw [h] at ih
        simp only [hx, if_neg hx, List.length_cons, List.count_cons]
        simp only [List.length_cons] at ih
        have hxc : (x == c) = false := by simpa using hx
        simp [hxc, ih]

/-- When an existing pull request with the given refs is found and the
reopen response (when one is needed) carries the same number, the decision
phase of `Create` settles on that existing pull request's number. -/
theorem prCreateCore_number_of_existing (env : PRCreateEnv) (repo baseRef headRef : String)
    (prs : List PRData) (existing rp : PRData)
    (hne : baseRef ≠ headRef) (hlist : env.listPRs = .ok prs)
    (hfind : findExistingPR prs baseRef headRef = some existing)
    (hedit : env.editPR = .ok rp) (hnum : rp.number = existing.number) :
    (prCreateCore env repo baseRef headRef).numberOf = some existing.number := by
  simp only [prCreateCore, if_neg hne, hlist, hfind]
  by_cases hco : (existing.state == "closed" && !existing.merged) = true
  · simp [hco, hedit, PRCreateResult.numberOf, hnum]
  · simp only [Bool.not_eq_true] at hco
    simp [hco, PRCreateResult.numberOf]

/-- A 404 from `DeleteFile` makes the Delete loop return success at once (the
file is treated as already deleted). -/
theorem deleteFileLoop_notFound (del : DeleteScript) (get : GetScript)
    (fuel i : Nat) (sha : Option String) (e : CallErr) (hf : 0 < fuel)
    (hc : del i = some e) (h404 : e.status = some 404) :
    deleteFileLoop del get fuel i sha = ([sha], .success) := by
  cases fuel with
  | zero => omega
  | succ n => simp [deleteFileLoop, hc, h404]

/-! ## Claim theorems -/

/-- C10: `splitRepoFullName s` succeeds exactly when splitting `s` on `"/"`
yields two parts — equivalently, when `s` contains exactly one `/` (parts may
be empty) — in which case it returns the two parts in order; otherwise it
returns empty strings and an error. -/
theorem C10_splitRepoFullName_spec (s : String) :
    ((splitRepoFullName s).isErr = false ↔ (splitOnChar '/' s.toList).length = 2)
    ∧ ((splitRepoFullName s).isErr = false ↔ s.toList.count '/' = 1)
    ∧ (∀ a b, splitOnChar '/' s.toList = [a, b] →
        splitRepoFullName s = ⟨⟨a⟩, ⟨b⟩, false⟩)
    ∧ ((splitOnChar '/' s.toList).length ≠ 2 → splitRepoFullName s = ⟨"", "", true⟩) := by
  have hlen := splitOnChar_length '/' s.toList
  rcases h : splitOnChar '/' s.toList with _ | ⟨a, _ | ⟨b, _ | ⟨c, rest⟩⟩⟩
  · exact absurd h (splitOnChar_ne_nil _ _)
  · rw [h] at hlen
    have hcount : s.toList.count '/' = 0 := by
      simp only [List.length_cons, List.length_nil] at hlen
      omega
    have hred : splitRepoFullName s = ⟨"", "", true⟩ := by
      unfold splitRepoFullName; rw [h]
    refine ⟨?_, ?_, ?_, ?_⟩
    · rw [hred]; simp
    · rw [hred, hcount]; simp
    · intro a' b' hab
      simp at hab
    · intro _; exact hred
  · have hcount : s.toList.count '/' = 1 := by
      rw [h] at hlen
      simp only [List.length_cons, List.length_nil] at hlen
      omega
    have hred : splitRepoFullName s = ⟨⟨a⟩, ⟨b⟩, false⟩ := by
      unfold splitRepoFullName; rw [h]
    refine ⟨?_, ?_, ?_, ?_⟩
    · rw [hred]; simp
    · rw [hred, hcount]; simp
    · intro a' b' hab
      simp only [List.cons.injEq, and_true] at hab
      obtain ⟨ha, hb⟩ := hab
      subst ha
      subst hb
      exact hred
    · intro hne; simp at hne
  · rw [h] at hlen
    have hcount : s.toList.count '/' = rest.length + 2 := by
      simp only [List.length_cons] at hlen
      omega
    have hred : splitRepoFullName s = ⟨"", "", true⟩ := by
      unfold splitRepoFullName; rw [h]
    refine ⟨?_, ?_, ?_, ?_⟩
    · rw [hred]
      constructor
      · intro hx; exact absurd hx (by decide)
      · intro hx; simp only [List.length_cons] at hx; omega
    · rw [hred, hcount]
      constructor
      · intro hx; exact absurd hx (by decide)
      · intro hx; omega
    · intro a' b' hab
      simp at hab
    · intro _; exact hred

/-- Witness for C10 at a concrete full name. -/
theorem C10_witness :
    splitRepoFullName "tfstack/terraform-provider-githubx"
      = ⟨"tfstack", "terraform-provider-githubx", false⟩ :=
  (C10_splitRepoFullName_spec "tfstack/terraform-provider-githubx").2.2.1
    "tfstack".toList "terraform-provider-githubx".toList (by decide)

/-- C5: a 429 from the `GetContents` call of `readFile` surfaces the fatal
"Rate Limit Exceeded" error diagnostic at once, with no retry and with the
model (the resource state) unchanged. -/
theorem C5_rate_limit_fatal (env : ReadFileEnv) (repo fp : String) (m : FileModel)
    (e : CallErr) (herr : env.getContents.err = some e) (h429 : e.status = some 429) :
    readFile env repo fp m = (m, [errDiag "Rate Limit Exceeded"]) := by
  simp [readFile, herr, h429]

/-- Witness for C5 at a concrete environment. -/
theorem C5_witness :
    readFile ⟨⟨none, some ⟨some 429, "API rate limit exceeded"⟩⟩, fun _ => none, none⟩
        "myrepo" "docs/README.md" emptyFileModel
      = (emptyFileModel, [errDiag "Rate Limit Exceeded"]) :=
  C5_rate_limit_fatal _ "myrepo" "docs/README.md" emptyFileModel
    ⟨some 429, "API rate limit exceeded"⟩ rfl rfl

/-- C2: a 404 is handled by state removal or "not found" handling rather than
an error diagnostic: `readFile` clears the model ID with no diagnostics, the
pull-request resource's `readPullRequest` clears the model ID with no
diagnostics, and the file resource's Delete returns success treating the file
as already deleted. -/
theorem C2_notFound_handling :
    (∀ (env : ReadFileEnv) (repo fp : String) (m : FileModel) (e : CallErr),
        env.getContents.err = some e → e.status = some 404 →
        readFile env repo fp m = ({m with id := TFString.value ""}, []))
    ∧ (∀ (getPR : Except CallErr PRData) (repo : String) (m : PRModel) (e : CallErr),
        getPR = Except.error e → e.status = some 404 →
        readPullRequest getPR repo m = ({m with id := TFString.value ""}, []))
    ∧ (∀ (del : DeleteScript) (get : GetScript) (sha : Option String) (e : CallErr),
        del 0 = some e → e.status = some 404 →
        fileDeleteConflictRetry del get sha = ([sha], .success)) := by
  refine ⟨?_, ?_, ?_⟩
  · intro env repo fp m e herr h404
    simp [readFile, herr, h404]
  · intro getPR repo m e hget h404
    simp [readPullRequest, hget, h404]
  · intro del get sha e hdel h404
    exact deleteFileLoop_notFound del get maxRetries 0 sha e (by decide) hdel h404

/-- Witness for C2 at concrete 404 environments. -/
theorem C2_witness :
    readFile ⟨⟨none, some ⟨some 404, "Not Found"⟩⟩, fun _ => none, none⟩
        "myrepo" "docs/README.md" emptyFileModel
      = ({emptyFileModel with id := TFString.value ""}, [])
    ∧ readPullRequest (Except.error ⟨some 404, "Not Found"⟩) "myrepo" emptyPRModel
      = ({emptyPRModel with id := TFString.value ""}, [])
    ∧ fileDeleteConflictRetry (fun _ => some ⟨some 404, "Not Found"⟩)
        (fun _ => ⟨none, none⟩) (some "blobsha")
      = ([some "blobsha"], .success) :=
  ⟨C2_notFound_handling.1 _ "myrepo" "docs/README.md" emptyFileModel
      ⟨some 404, "Not Found"⟩ rfl rfl,
   C2_notFound_handling.2.1 _ "myrepo" emptyPRModel ⟨some 404, "Not Found"⟩ rfl rfl,
   C2_notFound_handling.2.2 _ _ (some "blobsha") ⟨some 404, "Not Found"⟩ rfl rfl⟩

/-- C6: an error whose status is none of the classified 404/409/422/429 makes
the Create, Update and Delete retry loops of the file resource exit on the
first attempt, surfacing the failure as an error diagnostic with no further
attempt. -/
theorem C6_unclassified_errors_no_recovery (create : CreateScript) (get : GetScript)
    (del : DeleteScript) (overwrite : Bool) (sha : Option String) (e : CallErr)
    (h404 : e.status ≠ some 404) (h409 : e.status ≠ some 409)
    (h422 : e.status ≠ some 422) (h429 : e.status ≠ some 429) :
    (create 0 = .error e →
      fileCreateConflictRetry create get overwrite sha = ([sha], .failure e))
    ∧ (create 0 = .error e →
      fileUpdateConflictRetry create get sha = ([sha], .failure e))
    ∧ (del 0 = some e →
      fileDeleteConflictRetry del get sha = ([sha], .failure e)) := by
  refine ⟨?_, ?_, ?_⟩ <;> intro hc
  · exact createFileLoop_first_error create get overwrite maxRetries 0 sha e (by decide) hc h409
  · exact updateFileLoop_first_error create get maxRetries 0 sha e (by decide) hc h409
  · exact deleteFileLoop_first_error del get maxRetries 0 sha e (by decide) hc h404 h409

/-- Witness for C6 at a concrete 500 error. -/
theorem C6_witness :
    fileUpdateConflictRetry (fun _ => .error ⟨some 500, "Internal Server Error"⟩)
        (fun _ => ⟨none, none⟩) (some "blobsha")
      = ([some "blobsha"], .failure ⟨some 500, "Internal Server Error"⟩) :=
  (C6_unclassified_errors_no_recovery (fun _ => .error ⟨some 500, "Internal Server Error"⟩)
      (fun _ => ⟨none, none⟩) (fun _ => none) true (some "blobsha")
      ⟨some 500, "Internal Server Error"⟩
      (by decide) (by decide) (by decide) (by decide)).2.1 rfl

/-- C4: whenever the state holds a known blob SHA, the Update and Delete
request options carry that SHA as the write precondition, and the first
`CreateFile`/`DeleteFile` call of the respective retry loop is issued with
it. -/
theorem C4_sha_precondition (plan state : FileModel) (fp s : String)
    (create : CreateScript) (get : GetScript) (del : DeleteScript)
    (hsha : state.sha = TFString.value s) :
    (∀ o, updateBuildOpts plan state fp = .ok o →
        o.sha = some s
        ∧ (fileUpdateConflictRetry create get o.sha).1[0]? = some (some s))
    ∧ (∀ o, deleteBuildOpts state fp = .ok o →
        o.sha = some s
        ∧ (fileDeleteConflictRetry del get o.sha).1[0]? = some (some s)) := by
  have hknown : state.sha.known = true := by rw [hsha]; rfl
  have hval : state.sha.valueString = s := by rw [hsha]; rfl
  constructor
  · intro o ho
    have hovalue : o.sha = some s := by
      cases hb : buildFileOptions plan plan.content.valueString with
      | error d => simp [updateBuildOpts, hb] at ho
      | ok o0 =>
        simp only [updateBuildOpts, hb, hknown, hval, if_true] at ho
        split at ho <;>
          (simp only [Except.ok.injEq] at ho; subst ho; rfl)
    refine ⟨hovalue, ?_⟩
    obtain ⟨-, -, h0, -⟩ :=
      updateFileLoop_spec create get maxRetries (by decide) 0 (some s)
    simp only [fileUpdateConflictRetry, hovalue]
    exact h0
  · intro o ho
    have hovalue : o.sha = some s := by
      cases hb : buildFileOptions state "" with
      | error d => simp [deleteBuildOpts, hb] at ho
      | ok o0 =>
        simp only [deleteBuildOpts, hb, hknown, hval, if_true] at ho
        split at ho <;>
          (simp only [Except.ok.injEq] at ho; subst ho; rfl)
    refine ⟨hovalue, ?_⟩
    obtain ⟨-, -, h0, -⟩ :=
      deleteFileLoop_spec del get maxRetries (by decide) 0 (some s)
    simp only [fileDeleteConflictRetry, hovalue]
    exact h0

/-- Witness for C4 at a concrete state with a known SHA. -/
theorem C4_witness :
    (updateBuildOpts emptyFileModel {emptyFileModel with sha := TFString.value "abc123"} "f.txt"
        = .ok ⟨"", none, some "Update f.txt", none, none, some "abc123"⟩)
    ∧ ((fileUpdateConflictRetry (fun _ => .ok "c") (fun _ => ⟨none, none⟩)
          (some "abc123")).1[0]? = some (some "abc123")) := by
  refine ⟨by rfl, ?_⟩
  have h :=
    (C4_sha_precondition emptyFileModel {emptyFileModel with sha := TFString.value "abc123"}
      "f.txt" "abc123" (fun _ => .ok "c") (fun _ => ⟨none, none⟩) (fun _ => none) rfl).1
      ⟨"", none, some "Update f.txt", none, none, some "abc123"⟩ (by rfl)
  exact h.2

/-- C3: the polling loops are bounded — `mergeWhenReady` enters its loop at
most 30 times with 5-second sleeps between iterations and, when it sleeps
through its whole budget (the pull request never became ready), returns the
error "pull request not ready to merge after 30 attempts"; `waitForChecks`
enters its loop at most 60 times with 5-second sleeps and returns an error on
exhaustion.  Both embeddings are total Lean functions, so both loops
terminate on every input, with the stated iteration bounds. -/
theorem C3_bounded_polling :
    (∀ (env : Nat → MergeAttemptEnv) (plan : PRModel),
        (mergeWhenReady env plan).attempts ≤ 30
        ∧ (∀ d ∈ (mergeWhenReady env plan).sleeps, d = 5)
        ∧ ((mergeWhenReady env plan).sleeps.length = 30 →
            (mergeWhenReady env plan).result
              = .error "pull request not ready to merge after 30 attempts"))
    ∧ (∀ (cenv : ChecksEnv),
        (waitForChecks cenv).attempts ≤ 60
        ∧ (∀ d ∈ (waitForChecks cenv).sleeps, d = 5)
        ∧ ((waitForChecks cenv).sleeps.length = 60 →
            (waitForChecks cenv).result
              = .error "status checks did not complete after 60 attempts")) := by
  constructor
  · intro env plan
    obtain ⟨h1, -, h3, h4⟩ := mergeWhenReadyLoop_spec env plan.waitForChecks.valueBool
      plan.mergeMethod.valueString plan.autoDeleteBranch.valueBool mergeMaxAttempts 0
    refine ⟨h1, h3, fun hl => ?_⟩
    have hres := h4 hl
    rwa [show ("pull request not ready to merge after "
          ++ toString mergeMaxAttempts ++ " attempts")
        = "pull request not ready to merge after 30 attempts" from by decide] at hres
  · intro cenv
    obtain ⟨h1, -, h3, h4⟩ := waitForChecksLoop_spec cenv checksMaxAttempts 0
    refine ⟨h1, h3, fun hl => ?_⟩
    have hres := h4 hl
    rwa [show ("status checks did not complete after "
          ++ toString checksMaxAttempts ++ " attempts")
        = "status checks did not complete after 60 attempts" from by decide] at hres

/-- Witness for C3: a pull request whose mergeability is never computed
exhausts `mergeWhenReady`, and a permanently pending status check exhausts
`waitForChecks`. -/
theorem C3_witness :
    (mergeWhenReady
        (fun _ => ⟨.ok ⟨1, "t", "", "open", false, false, none, none, "", none, none⟩,
                   ⟨fun _ => .error ⟨none, "x"⟩, fun _ _ => .error ⟨none, "x"⟩⟩,
                   none, none, none, fun _ => none, none⟩)
        emptyPRModel).result
      = .error "pull request not ready to merge after 30 attempts"
    ∧ (waitForChecks
        ⟨fun _ => .ok ⟨1, "t", "", "open", false, false, none, none, "", none, none⟩,
         fun _ _ => .ok [⟨"pending", "ci"⟩]⟩).result
      = .error "status checks did not complete after 60 attempts" :=
  ⟨(C3_bounded_polling.1
      (fun _ => ⟨.ok ⟨1, "t", "", "open", false, false, none, none, "", none, none⟩,
                 ⟨fun _ => .error ⟨none, "x"⟩, fun _ _ => .error ⟨none, "x"⟩⟩,
                 none, none, none, fun _ => none, none⟩)
      emptyPRModel).2.2 (by decide),
   (C3_bounded_polling.2
      ⟨fun _ => .ok ⟨1, "t", "", "open", false, false, none, none, "", none, none⟩,
       fun _ _ => .ok [⟨"pending", "ci"⟩]⟩).2.2 (by decide)⟩

/-- C7: for every resource and data source, `Configure` with provider data of
the wrong type adds exactly one error diagnostic whose summary contains
"Configure Type" and leaves the stored client unchanged (hence unset on a
fresh struct), nil provider data gives no diagnostics and leaves the state
unchanged, and only a `githubxClientData` value installs the client (and
owner where present). -/
theorem C7_configure_contract :
    ((∃ x y, "Unexpected Resource Configure Type" = x ++ "Configure Type" ++ y)
      ∧ (∃ x y, "Unexpected Data Source Configure Type" = x ++ "Configure Type" ++ y))
    ∧ (∀ t st, repositoryFileResourceConfigure (.otherType t) st
        = (st, [errDiag "Unexpected Resource Configure Type"]))
    ∧ (∀ st, repositoryFileResourceConfigure .null st = (st, []))
    ∧ (∀ cd st, repositoryFileResourceConfigure (.clientData cd) st
        = (⟨cd.client, cd.owner⟩, []))
    ∧ (∀ t st, repositoryBranchResourceConfigure (.otherType t) st
        = (st, [errDiag "Unexpected Resource Configure Type"]))
    ∧ (∀ st, repositoryBranchResourceConfigure .null st = (st, []))
    ∧ (∀ cd st, repositoryBranchResourceConfigure (.clientData cd) st
        = (⟨cd.client, cd.owner⟩, []))
    ∧ (∀ t st, repositoryPullRequestResourceConfigure (.otherType t) st
        = (st, [errDiag "Unexpected Resource Configure Type"]))
    ∧ (∀ st, repositoryPullRequestResourceConfigure .null st = (st, []))
    ∧ (∀ cd st, repositoryPullRequestResourceConfigure (.clientData cd) st
        = (⟨cd.client, cd.owner⟩, []))
    ∧ (∀ t ul st, repositoryResourceConfigure (.otherType t) ul st
        = (st, [errDiag "Unexpected Resource Configure Type"]))
    ∧ (∀ ul st, repositoryResourceConfigure .null ul st = (st, []))
    ∧ (∀ cd ul st, (repositoryResourceConfigure (.clientData cd) ul st).1.client = cd.client
        ∧ (repositoryResourceConfigure (.clientData cd) ul st).1.owner = cd.owner
        ∧ (repositoryResourceConfigure (.clientData cd) ul st).2 = [])
    ∧ (∀ t c, userDataSourceConfigure (.otherType t) c
        = (c, [errDiag "Unexpected Data Source Configure Type"]))
    ∧ (∀ c, userDataSourceConfigure .null c = (c, []))
    ∧ (∀ cd c, userDataSourceConfigure (.clientData cd) c = (cd.client, []))
    ∧ (∀ t st, repositoryDataSourceConfigure (.otherType t) st
        = (st, [errDiag "Unexpected Data Source Configure Type"]))
    ∧ (∀ st, repositoryDataSourceConfigure .null st = (st, []))
    ∧ (∀ cd st, repositoryDataSourceConfigure (.clientData cd) st
        = (⟨cd.client, cd.owner⟩, []))
    ∧ (∀ t st, repositoryBranchDataSourceConfigure (.otherType t) st
        = (st, [errDiag "Unexpected Data Source Configure Type"]))
    ∧ (∀ st, repositoryBranchDataSourceConfigure .null st = (st, []))
    ∧ (∀ cd st, repositoryBranchDataSourceConfigure (.clientData cd) st
        = (⟨cd.client, cd.owner⟩, []))
    ∧ (∀ t st, repositoryFileDataSourceConfigure (.otherType t) st
        = (st, [errDiag "Unexpected Data Source Configure Type"]))
    ∧ (∀ st, repositoryFileDataSourceConfigure .null st = (st, []))
    ∧ (∀ cd st, repositoryFileDataSourceConfigure (.clientData cd) st
        = (⟨cd.client, cd.owner⟩, [])) := by
  refine ⟨⟨⟨"Unexpected Resource ", "", by decide⟩,
           ⟨"Unexpected Data Source ", "", by decide⟩⟩,
    fun t st => rfl, fun st => rfl, fun cd st => rfl,
    fun t st => rfl, fun st => rfl, fun cd st => rfl,
    fun t st => rfl, fun st => rfl, fun cd st => rfl,
    fun t ul st => rfl, fun ul st => rfl, ?_,
    fun t c => rfl, fun c => rfl, fun cd c => rfl,
    fun t st => rfl, fun st => rfl, fun cd st => rfl,
    fun t st => rfl, fun st => rfl, fun cd st => rfl,
    fun t st => rfl, fun st => rfl, fun cd st => rfl⟩
  intro cd ul st
  rcases cd with ⟨cc, ow⟩
  cases cc <;> cases ul <;> simp [repositoryResourceConfigure]

/-- C8: when an existing pull request with the same base and head refs is
found, `Create` never calls `PullRequests.Create`: a closed-and-not-merged
pull request is reopened (and the state takes the reopen response), any other
is adopted as-is, the state ID is `repository:number`, and — assuming the
reopen response preserves the number, as the remote API does — the settled
number is the existing pull request's, so a second `Create` with the same
arguments yields the same number. -/
theorem C8_adopt_existing_pr (env : PRCreateEnv) (repoName baseRef headRef : String)
    (prs : List PRData) (existing : PRData)
    (hne : baseRef ≠ headRef) (hlist : env.listPRs = .ok prs)
    (hfind : findExistingPR prs baseRef headRef = some existing) :
    (prCreateCore env repoName baseRef headRef).createdNewPR = false
    ∧ ((existing.state == "closed" && !existing.merged) = true →
        (∀ e, env.editPR = .error e →
          prCreateCore env repoName baseRef headRef = .err "Error reopening pull request")
        ∧ (∀ rp, env.editPR = .ok rp →
            prCreateCore env repoName baseRef headRef
              = .ok rp (repoName ++ ":" ++ toString rp.number) rp.number false true))
    ∧ ((existing.state == "closed" && !existing.merged) = false →
        prCreateCore env repoName baseRef headRef
          = .ok existing (repoName ++ ":" ++ toString existing.number)
              existing.number false false)
    ∧ (∀ rp, env.editPR = .ok rp → rp.number = existing.number →
        (prCreateCore env repoName baseRef headRef).numberOf = some existing.number) := by
  by_cases hco : (existing.state == "closed" && !existing.merged) = true
  · cases hed : env.editPR with
    | error e0 =>
      have hred : prCreateCore env repoName baseRef headRef
          = .err "Error reopening pull request" := by
        simp [prCreateCore, if_neg hne, hlist, hfind, hco, hed]
      refine ⟨?_, ?_, ?_, ?_⟩
      · rw [hred]; rfl
      · intro _
        constructor
        · intro e he; exact hred
        · intro rp hrp; exact absurd hrp (by simp)
      · intro hcontra; simp [hcontra] at hco
      · intro rp hrp hnum; exact absurd hrp (by simp)
    | ok rp0 =>
      have hred : prCreateCore env repoName baseRef headRef
          = .ok rp0 (repoName ++ ":" ++ toString rp0.number) rp0.number false true := by
        simp [prCreateCore, if_neg hne, hlist, hfind, hco, hed]
      refine ⟨?_, ?_, ?_, ?_⟩
      · rw [hred]; rfl
      · intro _
        constructor
        · intro e he; exact absurd he (by simp)
        · intro rp hrp
          injection hrp with hrr
          subst hrr
          exact hred
      · intro hcontra; simp [hcontra] at hco
      · intro rp hrp hnum
        injection hrp with hrr
        subst hrr
        exact prCreateCore_number_of_existing env repoName baseRef headRef prs existing rp0
          hne hlist hfind hed hnum
  · have hco' : (existing.state == "closed" && !existing.merged) = false := by
      simpa using hco
    have hred : prCreateCore env repoName baseRef headRef
        = .ok existing (repoName ++ ":" ++ toString existing.number)
            existing.number false false := by
      simp [prCreateCore, if_neg hne, hlist, hfind, hco']
    refine ⟨?_, ?_, ?_, ?_⟩
    · rw [hred]; rfl
    · intro hcontra; exact absurd hcontra hco
    · intro _; exact hred
    · intro rp hrp hnum
      exact prCreateCore_number_of_existing env repoName baseRef headRef prs existing rp
        hne hlist hfind hrp hnum

/-- Witness for C8: adopting a concrete open pull request with matching
refs. -/
theorem C8_witness :
    prCreateCore
        ⟨.ok [⟨7, "t", "", "open", false, false, none, none, "",
               some ⟨"feature", "h1"⟩, some ⟨"main", "b1"⟩⟩],
         .ok ⟨7, "t", "", "open", false, false, none, none, "",
               some ⟨"feature", "h1"⟩, some ⟨"main", "b1"⟩⟩,
         .ok ⟨some "b1"⟩, .ok ⟨some "h1"⟩,
         .error ⟨some 500, "should not be called"⟩⟩
        "myrepo" "main" "feature"
      = .ok ⟨7, "t", "", "open", false, false, none, none, "",
             some ⟨"feature", "h1"⟩, some ⟨"main", "b1"⟩⟩
          "myrepo:7" 7 false false :=
  (C8_adopt_existing_pr _ "myrepo" "main" "feature"
      [⟨7, "t", "", "open", false, false, none, none, "",
        some ⟨"feature", "h1"⟩, some ⟨"main", "b1"⟩⟩]
      ⟨7, "t", "", "open", false, false, none, none, "",
        some ⟨"feature", "h1"⟩, some ⟨"main", "b1"⟩⟩
      (by decide) rfl (by decide)).2.2.1 (by decide)

/-- C9: provider `Configure` resolves the authentication token by taking the
first non-empty value among the `token` attribute, the `oauth_token`
attribute, `GITHUB_TOKEN`, and the GitHub CLI token; only when all of those
are empty and an `app_auth` block is present is the GitHub App installation
token used; when every source is empty an unauthenticated client is created
with no error. -/
theorem C9_token_precedence (config : ProviderConfigModel) (env : ProviderEnv)
    (hurl : env.baseURLParseOk = true) :
    (config.token.valueString ≠ "" →
      (providerConfigure config env).authOf = some (some config.token.valueString))
    ∧ (config.token.valueString = "" → config.oauthToken.valueString ≠ "" →
      (providerConfigure config env).authOf = some (some config.oauthToken.valueString))
    ∧ (config.token.valueString = "" → config.oauthToken.valueString = "" →
        env.envGithubToken ≠ "" →
      (providerConfigure config env).authOf = some (some env.envGithubToken))
    ∧ (config.token.valueString = "" → config.oauthToken.valueString = "" →
        env.envGithubToken = "" → getGitHubCLIToken env.cliOutput ≠ "" →
      (providerConfigure config env).authOf
        = some (some (getGitHubCLIToken env.cliOutput)))
    ∧ (∀ app t, config.token.valueString = "" → config.oauthToken.valueString = "" →
        env.envGithubToken = "" → getGitHubCLIToken env.cliOutput = "" →
        config.appAuth = some app → env.appTokenRes = .ok t → t ≠ "" →
      (providerConfigure config env).authOf = some (some t))
    ∧ (config.token.valueString = "" → config.oauthToken.valueString = "" →
        env.envGithubToken = "" → getGitHubCLIToken env.cliOutput = "" →
        config.appAuth = none →
      (providerConfigure config env).authOf = some none)
    ∧ (∀ app, config.token.valueString = "" → config.oauthToken.valueString = "" →
        env.envGithubToken = "" → getGitHubCLIToken env.cliOutput = "" →
        config.appAuth = some app → env.appTokenRes = .ok "" →
      (providerConfigure config env).authOf = some none) := by
  refine ⟨?_, ?_, ?_, ?_, ?_, ?_, ?_⟩
  · intro hT
    simp [providerConfigure, hurl, hT, ProviderConfigureResult.authOf]
  · intro hT hO
    simp [providerConfigure, hurl, hT, hO, ProviderConfigureResult.authOf]
  · intro hT hO hE
    simp [providerConfigure, hurl, hT, hO, hE, ProviderConfigureResult.authOf]
  · intro hT hO hE hG
    simp [providerConfigure, hurl, hT, hO, hE, hG, ProviderConfigureResult.authOf]
  · intro app t hT hO hE hG happ htok ht
    simp [providerConfigure, hurl, hT, hO, hE, hG, happ, htok, ht,
      ProviderConfigureResult.authOf]
  · intro hT hO hE hG happ
    simp [providerConfigure, hurl, hT, hO, hE, hG, happ, ProviderConfigureResult.authOf]
  · intro app hT hO hE hG happ htok
    simp [providerConfigure, hurl, hT, hO, hE, hG, happ, htok,
      ProviderConfigureResult.authOf]

/-- Witness for C9: the `oauth_token` attribute wins when `token` is empty. -/
theorem C9_witness :
    (providerConfigure
        ⟨.null, .value "oauth-tok", none, .null, .null, .null⟩
        ⟨"env-tok", none, "", true, .ok "", "", "", none⟩).authOf
      = some (some "oauth-tok") :=
  (C9_token_precedence
      ⟨.null, .value "oauth-tok", none, .null, .null, .null⟩
      ⟨"env-tok", none, "", true, .ok "", "", "", none⟩ rfl).2.1 rfl (by decide)

/-- C1 counterexample: an HTTP 422 error does not trigger the conflict retry.
On a script that always fails with 422, the Create, Update and Delete loops
each make exactly one API attempt — no `GetContents` refetch, no further
attempts — and the error diagnostic is surfaced immediately, not after 5
attempts. -/
theorem C1_counterexample_422_not_retried :
    (fileCreateConflictRetry (fun _ => .error ⟨some 422, "Validation Failed"⟩)
        (fun _ => ⟨none, none⟩) true none).1.length = 1
    ∧ (fileCreateConflictRetry (fun _ => .error ⟨some 422, "Validation Failed"⟩)
        (fun _ => ⟨none, none⟩) true none).2
      = .failure ⟨some 422, "Validation Failed"⟩
    ∧ (fileUpdateConflictRetry (fun _ => .error ⟨some 422, "Validation Failed"⟩)
        (fun _ => ⟨none, none⟩) (some "oldsha")).1.length = 1
    ∧ (fileUpdateConflictRetry (fun _ => .error ⟨some 422, "Validation Failed"⟩)
        (fun _ => ⟨none, none⟩) (some "oldsha")).2
      = .failure ⟨some 422, "Validation Failed"⟩
    ∧ (fileDeleteConflictRetry (fun _ => some ⟨some 422, "Validation Failed"⟩)
        (fun _ => ⟨none, none⟩) (some "oldsha")).1.length = 1
    ∧ (fileDeleteConflictRetry (fun _ => some ⟨some 422, "Validation Failed"⟩)
        (fun _ => ⟨none, none⟩) (some "oldsha")).2
      = .failure ⟨some 422, "Validation Failed"⟩ := by decide

/-- C1 (amended): only HTTP 409 triggers the bounded conflict retry of at
most 5 attempts in the file resource's Create, Update and Delete.  Every
retry follows a 409 and a refetch of the file via `GetContents`: Update and
Delete retry only when the refetch returns a file and re-issue the call with
its fresh blob SHA; Create adopts the fresh SHA when `overwrite_on_create`
is set, reports "File Already Exists" at once when the file exists and
`overwrite_on_create` is unset, and retries with its previous SHA when the
refetch fails; any other status exits the loop on the first failing attempt;
the error diagnostic is reported only when the loop exits, and a persistent
409 exhausts exactly 5 attempts before the diagnostic. -/
theorem C1_amended_conflict_retry_409 :
    (∀ (create : CreateScript) (get : GetScript) (sha : Option String),
      1 ≤ (fileUpdateConflictRetry create get sha).1.length
      ∧ (fileUpdateConflictRetry create get sha).1.length ≤ 5
      ∧ (fileUpdateConflictRetry create get sha).1[0]? = some sha
      ∧ ∀ j, j + 1 < (fileUpdateConflictRetry create get sha).1.length →
          (∃ e, create j = Except.error e ∧ e.status = some 409)
          ∧ (get j).err = none
          ∧ ∃ fcd, (get j).fc = some fcd
              ∧ (fileUpdateConflictRetry create get sha).1[j + 1]? = some (some fcd.sha))
    ∧ (∀ (create : CreateScript) (get : GetScript) (overwrite : Bool) (sha : Option String),
      1 ≤ (fileCreateConflictRetry create get overwrite sha).1.length
      ∧ (fileCreateConflictRetry create get overwrite sha).1.length ≤ 5
      ∧ (fileCreateConflictRetry create get overwrite sha).1[0]? = some sha
      ∧ ∀ j, j + 1 < (fileCreateConflictRetry create get overwrite sha).1.length →
          (∃ e, create j = Except.error e ∧ e.status = some 409)
          ∧ (((get j).err = none
                ∧ ∃ fcd, (get j).fc = some fcd ∧ overwrite = true
                    ∧ (fileCreateConflictRetry create get overwrite sha).1[j + 1]?
                        = some (some fcd.sha))
              ∨ (((get j).err ≠ none ∨ (get j).fc = none)
                  ∧ (fileCreateConflictRetry create get overwrite sha).1[j + 1]?
                      = (fileCreateConflictRetry create get overwrite sha).1[j]?)))
    ∧ (∀ (del : DeleteScript) (get : GetScript) (sha : Option String),
      1 ≤ (fileDeleteConflictRetry del get sha).1.length
      ∧ (fileDeleteConflictRetry del get sha).1.length ≤ 5
      ∧ (fileDeleteConflictRetry del get sha).1[0]? = some sha
      ∧ ∀ j, j + 1 < (fileDeleteConflictRetry del get sha).1.length →
          (∃ e, del j = some e ∧ e.status = some 409)
          ∧ readErrIsNotFound (get j).err = false
          ∧ ∃ fcd, (get j).fc = some fcd
              ∧ (fileDeleteConflictRetry del get sha).1[j + 1]? = some (some fcd.sha))
    ∧ (∀ (create : CreateScript) (get : GetScript) (overwrite : Bool) (sha : Option String)
        (e : CallErr), e.status ≠ some 409 → create 0 = .error e →
        fileCreateConflictRetry create get overwrite sha = ([sha], .failure e)
        ∧ fileUpdateConflictRetry create get sha = ([sha], .failure e))
    ∧ (∀ (del : DeleteScript) (get : GetScript) (sha : Option String) (e : CallErr),
        e.status ≠ some 404 → e.status ≠ some 409 → del 0 = some e →
        fileDeleteConflictRetry del get sha = ([sha], .failure e))
    ∧ (∀ (create : CreateScript) (get : GetScript) (sha : Option String) (e : CallErr)
        (fcd : FileContentData), create 0 = .error e → e.status = some 409 →
        (get 0).err = none → (get 0).fc = some fcd →
        fileCreateConflictRetry create get false sha = ([sha], .alreadyExistsErr))
    ∧ (fileUpdateConflictRetry (fun _ => .error ⟨some 409, "409 Conflict"⟩)
          (fun _ => ⟨some ⟨"fresh", none, .ok none⟩, none⟩) (some "oldsha"))
        = ([some "oldsha", some "fresh", some "fresh", some "fresh", some "fresh"],
           .failure ⟨some 409, "409 Conflict"⟩)
    ∧ (fileCreateConflictRetry (fun _ => .error ⟨some 409, "409 Conflict"⟩)
          (fun _ => ⟨some ⟨"fresh", none, .ok none⟩, none⟩) true none)
        = ([none, some "fresh", some "fresh", some "fresh", some "fresh"],
           .failure ⟨some 409, "409 Conflict"⟩)
    ∧ (fileDeleteConflictRetry (fun _ => some ⟨some 409, "409 Conflict"⟩)
          (fun _ => ⟨some ⟨"fresh", none, .ok none⟩, none⟩) (some "oldsha"))
        = ([some "oldsha", some "fresh", some "fresh", some "fresh", some "fresh"],
           .failure ⟨some 409, "409 Conflict"⟩) := by
  refine ⟨?_, ?_, ?_, ?_, ?_, ?_, by decide, by decide, by decide⟩
  · intro create get sha
    obtain ⟨h1, h2, h3, h4⟩ := updateFileLoop_spec create get maxRetries (by decide) 0 sha
    refine ⟨h1, h2, h3, ?_⟩
    intro j hj
    simpa using h4 j hj
  · intro create get overwrite sha
    obtain ⟨h1, h2, h3, h4⟩ :=
      createFileLoop_spec create get overwrite maxRetries (by decide) 0 sha
    refine ⟨h1, h2, h3, ?_⟩
    intro j hj
    simpa using h4 j hj
  · intro del get sha
    obtain ⟨h1, h2, h3, h4⟩ := deleteFileLoop_spec del get maxRetries (by decide) 0 sha
    refine ⟨h1, h2, h3, ?_⟩
    intro j hj
    simpa using h4 j hj
  · intro create get overwrite sha e hs hc
    exact ⟨createFileLoop_first_error create get overwrite maxRetries 0 sha e (by decide) hc hs,
      updateFileLoop_first_error create get maxRetries 0 sha e (by decide) hc hs⟩
  · intro del get sha e h404 h409 hc
    exact deleteFileLoop_first_error del get maxRetries 0 sha e (by decide) hc h404 h409
  · intro create get sha e fcd hc hs hge hgf
    exact createFileLoop_already_exists create get maxRetries 0 sha e fcd (by decide)
      hc hs hge hgf

/-- Witness for C1 (amended): a 503 exits Update after one attempt, and a
409 on an existing file without `overwrite_on_create` reports
"File Already Exists" at once. -/
theorem C1_amended_witness :
    fileUpdateConflictRetry (fun _ => .error ⟨some 503, "Service Unavailable"⟩)
        (fun _ => ⟨none, none⟩) (some "oldsha")
      = ([some "oldsha"], .failure ⟨some 503, "Service Unavailable"⟩)
    ∧ fileCreateConflictRetry (fun _ => .error ⟨some 409, "409 Conflict"⟩)
        (fun _ => ⟨some ⟨"f1", none, .ok none⟩, none⟩) false none
      = ([none], .alreadyExistsErr) :=
  ⟨(C1_amended_conflict_retry_409.2.2.2.1
      (fun _ => .error ⟨some 503, "Service Unavailable"⟩) (fun _ => ⟨none, none⟩)
      true (some "oldsha") ⟨some 503, "Service Unavailable"⟩ (by decide) rfl).2,
   C1_amended_conflict_retry_409.2.2.2.2.2.1
      (fun _ => .error ⟨some 409, "409 Conflict"⟩)
      (fun _ => ⟨some ⟨"f1", none, .ok none⟩, none⟩) none ⟨some 409, "409 Conflict"⟩
      ⟨"f1", none, .ok none⟩ rfl rfl rfl rfl⟩

end Githubx
